import Mathlib

/-!
Shallow embedding of `src/transform_rentman_ical.py` (a single-file Python
pipeline that classifies Rentman calendar events, optionally overrides the
event window with an embedded "Usage" period, and routes events into a
confirmed feed and a pending feed).

Text is modelled as `List Char`.  Python semantics modelled here:
  * `str.strip` / regex `\s` use the ASCII whitespace set
    (space, tab, newline, carriage return, vertical tab, form feed);
    Python additionally strips some rare Unicode spaces (modelled subset).
  * `str.splitlines` splits on `\n`, `\r` and `\r\n`; Python additionally
    splits on rare Unicode line breaks (modelled subset).
  * regex word characters (`\b` boundaries) are ASCII alphanumerics, the
    underscore, and the letter ä/Ä (the only non-ASCII word character
    occurring in the source's patterns); Python uses full Unicode.
  * case folding is ASCII plus ä/Ä.
Each definition carries the name of the Python object it embeds.
-/

/-- Python whitespace characters (ASCII subset of `str.strip` / regex `\s`). -/
def pyIsWs (c : Char) : Bool :=
  c = ' ' || c = '\t' || c = '\n' || c = '\x0d' || c = '\x0b' || c = '\x0c'

/-- Lowercasing as used by `str.lower` / `re.I` (ASCII plus Ä→ä). -/
def toLowerU (c : Char) : Char :=
  if c = 'Ä' then 'ä' else c.toLower

/-- Uppercasing as used by `str.upper` (ASCII plus ä→Ä). -/
def toUpperU (c : Char) : Char :=
  if c = 'ä' then 'Ä' else c.toUpper

/-- Regex word character (`\w`), used for `\b` boundaries: ASCII
alphanumerics, underscore, and ä/Ä (modelled subset of Unicode `\w`). -/
def isWordCharU (c : Char) : Bool :=
  c.isAlphanum || c = '_' || c = 'ä' || c = 'Ä'

/-- Python `str.lstrip()` on the modelled whitespace set. -/
def pyLstrip (s : List Char) : List Char := s.dropWhile pyIsWs

/-- Python `str.rstrip()` on the modelled whitespace set. -/
def pyRstrip (s : List Char) : List Char := (s.reverse.dropWhile pyIsWs).reverse

/-- Python `str.strip()` on the modelled whitespace set. -/
def pyStrip (s : List Char) : List Char := pyRstrip (pyLstrip s)

/-- Python substring test `needle in hay` (case-sensitive). -/
def containsSub (hay needle : List Char) : Bool :=
  match hay with
  | [] => needle = []
  | _ :: t => needle.isPrefixOf hay || containsSub t needle

/-- Python `" ".join(vals)`. -/
def joinSpace : List (List Char) → List Char
  | [] => []
  | [v] => v
  | v :: vs => v ++ ' ' :: joinSpace vs

/-- Python `str.splitlines()` restricted to `\n`, `\r`, `\r\n`
(modelled subset of the Unicode line-break set). -/
def pySplitlines : List Char → List (List Char) :=
  go []
where
  /-- Accumulates the current line in reverse; a trailing line break does
  not produce a final empty line, matching Python. -/
  go (acc : List Char) : List Char → List (List Char)
    | [] => if acc = [] then [] else [acc.reverse]
    | '\x0d' :: '\n' :: r => acc.reverse :: go [] r
    | '\n' :: r => acc.reverse :: go [] r
    | '\x0d' :: r => acc.reverse :: go [] r
    | c :: r => go (c :: acc) r

/-- First `some` produced by `f` over a list (Python loop with `return`). -/
def firstSome (f : α → Option β) : List α → Option β
  | [] => none
  | x :: xs =>
    match f x with
    | some b => some b
    | none => firstSome f xs

/-- Case-insensitive literal match: if `s` starts with the (lowercase)
word `w` up to `toLowerU`, return the remaining suffix. -/
def wordCIAt (w s : List Char) : Option (List Char) :=
  match w, s with
  | [], r => some r
  | _ :: _, [] => none
  | a :: ws, c :: r => if toLowerU c = a then wordCIAt ws r else none

/-- Right-hand `\b` boundary: end of string or a non-word character. -/
def boundaryOk (r : List Char) : Bool :=
  match r with
  | [] => true
  | c :: _ => !isWordCharU c

/-- Does one of the alternation's words match at the head of `s` with a
word boundary after it? -/
def anyWordAt (ws : List (List Char)) (s : List Char) : Bool :=
  ws.any fun w =>
    match wordCIAt w s with
    | some r => boundaryOk r
    | none => false

/-- Scanning engine for the source's three status patterns, each of shape
`\b(w1|w2|...)\b` with `re.I`: does some word of `ws` occur in the text as
a whole word?  `prev` records whether the previous character is a word
character (left `\b` boundary). -/
def reWordScan (ws : List (List Char)) : Bool → List Char → Bool
  | _, [] => false
  | prev, c :: r => (!prev && anyWordAt ws (c :: r)) || reWordScan ws (isWordCharU c) r

/-- Boolean `PAT.search(s) is not None` for a whole-word alternation. -/
def reWordSearch (ws : List (List Char)) (s : List Char) : Bool :=
  reWordScan ws false s

/-- `CONFIRM_PAT = re.compile(r"\b(confirm(ed)?|best(ae|ä)tigt)\b", re.I)`,
written as the set of whole words the alternation accepts. -/
def CONFIRM_PAT : List (List Char) :=
  ["confirm", "confirmed", "bestaetigt", "bestätigt"].map String.toList

/-- `OPTION_PAT = re.compile(r"\b(option|concept|konzept|tentative|pending)\b", re.I)`. -/
def OPTION_PAT : List (List Char) :=
  ["option", "concept", "konzept", "tentative", "pending"].map String.toList

/-- `CANCEL_PAT = re.compile(r"\b(cancel(l)?(ed)?|storniert|abgesagt)\b", re.I)`,
with `cancel(l)?(ed)?` expanded to its four accepted words. -/
def CANCEL_PAT : List (List Char) :=
  ["cancel", "cancell", "canceled", "cancelled", "storniert", "abgesagt"].map String.toList

/-- Status pair returned by the classifier:
(ICS protocol token, display label). -/
abbrev StatusPair := List Char × List Char

/-- The pair `("CANCELLED", "Cancelled")`. -/
def stCancelled : StatusPair := ("CANCELLED".toList, "Cancelled".toList)

/-- The pair `("CONFIRMED", "Confirmed")`. -/
def stConfirmed : StatusPair := ("CONFIRMED".toList, "Confirmed".toList)

/-- The pair `("TENTATIVE", "Pending")`. -/
def stPending : StatusPair := ("TENTATIVE".toList, "Pending".toList)

/-- A Gregorian calendar date (`datetime.date`). -/
structure PyDate where
  year : Nat
  month : Nat
  day : Nat
deriving DecidableEq, Repr

/-- A naive wall-clock date-time (`datetime.datetime` without tzinfo). -/
structure NaiveDT where
  date : PyDate
  hour : Nat
  minute : Nat
  second : Nat
deriving DecidableEq, Repr

/-- Timezone attached to a datetime: either a fixed UTC offset in minutes
(from a parsed `+HH:MM` / `Z` marker) or the configured named zone
`TZ = pytz.timezone("America/Vancouver")`.  `pytz.localize` attaches the
named zone and preserves the wall clock, which is all the pipeline
observes. -/
inductive PyTz where
  | fixedOffset (minutes : Int)
  | configured
deriving DecidableEq, Repr

/-- A Python `datetime.datetime`: wall-clock components plus optional
timezone (`tz = none` models a naive datetime). -/
structure PyDT where
  wall : NaiveDT
  tz : Option PyTz
deriving DecidableEq, Repr

/-- A value of an ICS `DTSTART`/`DTEND` property: either a bare date or a
datetime (`comp.get(...).dt` in the source). -/
inductive PyDOD where
  | d (dd : PyDate)
  | t (p : PyDT)
deriving DecidableEq, Repr

/-- `TZ.localize(naive)`: attach the configured zone, keeping the wall clock. -/
def tzLocalize (n : NaiveDT) : PyDT := ⟨n, some .configured⟩

/-- `datetime.combine(d, time(h, m))` for a clock time. -/
def pyCombine (dd : PyDate) (h m : Nat) : NaiveDT := ⟨dd, h, m, 0⟩

/-- The date component of a nominal endpoint:
`x.date() if isinstance(x, datetime) else x` in `usage_override`. -/
def dateOfDOD : PyDOD → PyDate
  | .d dd => dd
  | .t p => p.wall.date

/-- Normalization applied in `main` before the usage scan: a bare date
becomes midnight localized to the configured zone
(`TZ.localize(datetime.combine(d, time(0,0)))`); datetimes pass through. -/
def normalizeDOD : PyDOD → PyDT
  | .d dd => tzLocalize (pyCombine dd 0 0)
  | .t p => p

/-- A raw VEVENT as read from the source feed.  `none` models an absent
property (`comp.get(...)` returning `None`); categories are modelled as
the list of their string values. -/
structure RawEvent where
  uid : Option (List Char)
  summary : Option (List Char)
  description : Option (List Char)
  location : Option (List Char)
  status : Option (List Char)
  categories : Option (List (List Char))
  dtstart : Option PyDOD
  dtend : Option PyDOD
deriving DecidableEq, Repr

/-- Numeric value of a digit character. -/
def digitVal (c : Char) : Nat := c.toNat - 48

/-- Gregorian leap year (as validated by `datetime`). -/
def isLeap (y : Nat) : Bool := (y % 4 = 0 && y % 100 ≠ 0) || y % 400 = 0

/-- Days in a month (as validated by `datetime`). -/
def daysInMonth (y mo : Nat) : Nat :=
  if mo = 2 then (if isLeap y then 29 else 28)
  else if mo = 4 ∨ mo = 6 ∨ mo = 9 ∨ mo = 11 then 30
  else 31

/-- Exactly two digits. -/
def match2d (s : List Char) : Option (Nat × List Char) :=
  match s with
  | a :: b :: r =>
    if a.isDigit ∧ b.isDigit then some (digitVal a * 10 + digitVal b, r) else none
  | _ => none

/-- Exactly four digits (strptime `%Y`, regex `\d\d\d\d`). -/
def match4d (s : List Char) : Option (Nat × List Char) :=
  match s with
  | a :: b :: c :: d :: r =>
    if a.isDigit ∧ b.isDigit ∧ c.isDigit ∧ d.isDigit then
      some (digitVal a * 1000 + digitVal b * 100 + digitVal c * 10 + digitVal d, r)
    else none
  | _ => none

/-- strptime `%m`, CPython TimeRE regex `1[0-2]|0[1-9]|[1-9]`
(alternatives tried in this order). -/
def matchMonth (s : List Char) : Option (Nat × List Char) :=
  match s with
  | a :: b :: r =>
    if a = '1' ∧ b.isDigit ∧ digitVal b ≤ 2 then some (10 + digitVal b, r)
    else if a = '0' ∧ b.isDigit ∧ 1 ≤ digitVal b then some (digitVal b, r)
    else if a.isDigit ∧ 1 ≤ digitVal a then some (digitVal a, b :: r)
    else none
  | [a] => if a.isDigit ∧ 1 ≤ digitVal a then some (digitVal a, []) else none
  | [] => none

/-- strptime `%d`, CPython TimeRE regex `3[01]|[12]\d|0[1-9]|[1-9]`. -/
def matchDay (s : List Char) : Option (Nat × List Char) :=
  match s with
  | a :: b :: r =>
    if a = '3' ∧ b.isDigit ∧ digitVal b ≤ 1 then some (30 + digitVal b, r)
    else if (a = '1' ∨ a = '2') ∧ b.isDigit then some (digitVal a * 10 + digitVal b, r)
    else if a = '0' ∧ b.isDigit ∧ 1 ≤ digitVal b then some (digitVal b, r)
    else if a.isDigit ∧ 1 ≤ digitVal a then some (digitVal a, b :: r)
    else none
  | [a] => if a.isDigit ∧ 1 ≤ digitVal a then some (digitVal a, []) else none
  | [] => none

/-- strptime `%H`, CPython TimeRE regex `2[0-3]|[0-1]\d|\d`. -/
def matchHour (s : List Char) : Option (Nat × List Char) :=
  match s with
  | a :: b :: r =>
    if a = '2' ∧ b.isDigit ∧ digitVal b ≤ 3 then some (20 + digitVal b, r)
    else if (a = '0' ∨ a = '1') ∧ b.isDigit then some (digitVal a * 10 + digitVal b, r)
    else if a.isDigit then some (digitVal a, b :: r)
    else none
  | [a] => if a.isDigit then some (digitVal a, []) else none
  | [] => none

/-- strptime `%M`, CPython TimeRE regex `[0-5]\d|\d`. -/
def matchMinute (s : List Char) : Option (Nat × List Char) :=
  match s with
  | a :: b :: r =>
    if a.isDigit ∧ digitVal a ≤ 5 ∧ b.isDigit then some (digitVal a * 10 + digitVal b, r)
    else if a.isDigit then some (digitVal a, b :: r)
    else none
  | [a] => if a.isDigit then some (digitVal a, []) else none
  | [] => none

/-- strptime `%S`, CPython TimeRE regex `6[0-1]|[0-5]\d|\d` (leap seconds
60/61 are accepted by the regex and rejected later by the `datetime`
constructor). -/
def matchSecond (s : List Char) : Option (Nat × List Char) :=
  match s with
  | a :: b :: r =>
    if a = '6' ∧ b.isDigit ∧ digitVal b ≤ 1 then some (60 + digitVal b, r)
    else if a.isDigit ∧ digitVal a ≤ 5 ∧ b.isDigit then some (digitVal a * 10 + digitVal b, r)
    else if a.isDigit then some (digitVal a, b :: r)
    else none
  | [a] => if a.isDigit then some (digitVal a, []) else none
  | [] => none

/-- A literal separator in a strptime format.  CPython compiles formats
with `re.IGNORECASE` and converts format whitespace to `\s+`, so a space
separator consumes a nonempty whitespace run and `T` also matches `t`. -/
def matchSepT (sep : Char) (s : List Char) : Option (List Char) :=
  if sep = ' ' then
    match s with
    | c :: r => if pyIsWs c then some (r.dropWhile pyIsWs) else none
    | [] => none
  else
    match s with
    | c :: r => if toLowerU c = toLowerU sep then some r else none
    | [] => none

/-- Range validation performed by the `datetime` constructor after
strptime field extraction. -/
def validDT (y mo d h mi sec : Nat) : Prop :=
  1 ≤ y ∧ y ≤ 9999 ∧ 1 ≤ mo ∧ mo ≤ 12 ∧ 1 ≤ d ∧ d ≤ daysInMonth y mo ∧
    h ≤ 23 ∧ mi ≤ 59 ∧ sec ≤ 59

instance (y mo d h mi sec : Nat) : Decidable (validDT y mo d h mi sec) := by
  unfold validDT; infer_instance

/-- One entry of `DT_FORMATS`: all six formats share the shape
`%Y s %m s %d t %H:%M[:%S]` with `s ∈ {-,/}`, `t ∈ {space,T}`. -/
structure FmtSpec where
  dateSep : Char
  timeSep : Char
  withSec : Bool

/-- `DT_FORMATS` (lines 70–74), in source order. -/
def DT_FORMATS : List FmtSpec :=
  [⟨'-', ' ', true⟩, ⟨'-', ' ', false⟩,
   ⟨'/', ' ', true⟩, ⟨'/', ' ', false⟩,
   ⟨'-', 'T', true⟩, ⟨'-', 'T', false⟩]

/-- `datetime.strptime(s, fmt)` for one of the six `DT_FORMATS` entries:
field extraction per the TimeRE regexes, full-string consumption, then
constructor validation. -/
def strptimeFmt (f : FmtSpec) (s : List Char) : Option NaiveDT :=
  (match4d s).bind fun yr =>
  (matchSepT f.dateSep yr.2).bind fun r2 =>
  (matchMonth r2).bind fun mor =>
  (matchSepT f.dateSep mor.2).bind fun r4 =>
  (matchDay r4).bind fun dr =>
  (matchSepT f.timeSep dr.2).bind fun r6 =>
  (matchHour r6).bind fun hr =>
  (matchSepT ':' hr.2).bind fun r8 =>
  (matchMinute r8).bind fun mir =>
  (if f.withSec then
      (matchSepT ':' mir.2).bind fun r10 => matchSecond r10
    else some (0, mir.2)).bind fun secr =>
  if secr.2 = [] ∧ validDT yr.1 mor.1 dr.1 hr.1 mir.1 secr.1 then
    some ⟨⟨yr.1, mor.1, dr.1⟩, hr.1, mir.1, secr.1⟩
  else none

/-- `datetime.strptime(x, "%H:%M").time()` as used on the `TIME_PAIR`
capture groups (lines 105–106): `none` models the uncaught `ValueError`. -/
def strptimeHM (s : List Char) : Option (Nat × Nat) :=
  (matchHour s).bind fun hr =>
  (matchSepT ':' hr.2).bind fun r2 =>
  (matchMinute r2).bind fun mir =>
  if mir.2 = [] then some (hr.1, mir.1) else none

/-- Offset suffix of an ISO string: empty (naive) or `±HH:MM` with the
`timezone`/`timedelta` range checks. -/
def isoOffset (s : List Char) : Option (Option PyTz) :=
  match s with
  | [] => some none
  | [sign, o1, o2, ':', o3, o4] =>
    if (sign = '+' ∨ sign = '-') ∧ o1.isDigit ∧ o2.isDigit ∧ o3.isDigit ∧ o4.isDigit then
      let oh := digitVal o1 * 10 + digitVal o2
      let om := digitVal o3 * 10 + digitVal o4
      if oh ≤ 23 ∧ om ≤ 59 then
        some (some (.fixedOffset ((if sign = '-' then -1 else 1) * (oh * 60 + om : Nat))))
      else none
    else none
  | _ => none

/-- Time-of-day part of an ISO string: `HH[:MM[:SS]]` then the optional
offset. -/
def isoTimeParse (s : List Char) : Option (Nat × Nat × Nat × Option PyTz) :=
  match s with
  | h1 :: h2 :: rest =>
    if h1.isDigit ∧ h2.isDigit then
      let h := digitVal h1 * 10 + digitVal h2
      if h ≤ 23 then
        match rest with
        | ':' :: m1 :: m2 :: rest2 =>
          if m1.isDigit ∧ m2.isDigit then
            let mi := digitVal m1 * 10 + digitVal m2
            if mi ≤ 59 then
              match rest2 with
              | ':' :: s1 :: s2 :: rest3 =>
                if s1.isDigit ∧ s2.isDigit then
                  let sec := digitVal s1 * 10 + digitVal s2
                  if sec ≤ 59 then
                    (isoOffset rest3).map fun tz => (h, mi, sec, tz)
                  else none
                else none
              | _ => (isoOffset rest2).map fun tz => (h, mi, 0, tz)
            else none
          else none
        | _ => (isoOffset rest).map fun tz => (h, 0, 0, tz)
      else none
    else none
  | _ => none

/-- Modelled from CPython `datetime.fromisoformat` (3.11+ grammar), on the
subset `YYYY-MM-DD[<any single separator char>HH[:MM[:SS]][±HH:MM]]`:
no basic (compact) dates, no fractional seconds, no `Z` suffix (the
caller has already replaced `Z`), no seconds field in the offset.
Failure (`none`) models the `ValueError` the caller catches. -/
def fromisoformatM (s : List Char) : Option PyDT :=
  match s with
  | y1 :: y2 :: y3 :: y4 :: '-' :: m1 :: m2 :: '-' :: d1 :: d2 :: rest =>
    if y1.isDigit ∧ y2.isDigit ∧ y3.isDigit ∧ y4.isDigit ∧
        m1.isDigit ∧ m2.isDigit ∧ d1.isDigit ∧ d2.isDigit then
      let y := digitVal y1 * 1000 + digitVal y2 * 100 + digitVal y3 * 10 + digitVal y4
      let mo := digitVal m1 * 10 + digitVal m2
      let d := digitVal d1 * 10 + digitVal d2
      if 1 ≤ y ∧ 1 ≤ mo ∧ mo ≤ 12 ∧ 1 ≤ d ∧ d ≤ daysInMonth y mo then
        match rest with
        | [] => some ⟨⟨⟨y, mo, d⟩, 0, 0, 0⟩, none⟩
        | _sep :: trest =>
          (isoTimeParse trest).map fun q => ⟨⟨⟨y, mo, d⟩, q.1, q.2.1, q.2.2.1⟩, q.2.2.2⟩
      else none
    else none
  | _ => none

/-- Python `s.replace("Z", "+00:00")`. -/
def replaceZ (s : List Char) : List Char :=
  s.flatMap fun c => if c = 'Z' then "+00:00".toList else [c]

/-- `parse_dt` (lines 76–90): strip and replace `Z`; if the text contains
`T` and (`+` or a trailing `Z` — impossible after the replace, kept for
fidelity), try `fromisoformat` and return the result as-is when aware,
localized when naive; otherwise, or on ISO failure, try the six
`DT_FORMATS` in order, localizing a naive hit; `none` if nothing matches. -/
def parse_dt (s0 : List Char) : Option PyDT :=
  let s := replaceZ (pyStrip s0)
  let iso :=
    if s.contains 'T' ∧ (s.contains '+' ∨ s.getLast? = some 'Z') then
      match fromisoformatM (replaceZ s) with
      | some dtv => some (if dtv.tz.isSome then dtv else tzLocalize dtv.wall)
      | none => none
    else none
  match iso with
  | some r => some r
  | none => firstSome (fun f => (strptimeFmt f s).map tzLocalize) DT_FORMATS

/-- Length of the whitespace run at the head of `s` (regex `\s*`, greedy). -/
def wsRun (s : List Char) : Nat := (s.takeWhile pyIsWs).length

/-- Length of the run matched greedily by `[^:\n]*`. -/
def nonColonRun (t : List Char) : Nat :=
  (t.takeWhile fun c => !(c = ':' || c = '\n')).length

/-- The `\s*(.+)` suffix of `USAGE_LINE`: the greedy `\s*` backtracks from
its maximal run until the capture `(.+)` is nonempty. -/
def usageCDGo (u : List Char) : Nat → Option (List Char)
  | 0 => if u = [] then none else some u
  | c + 1 =>
    if u.drop (c + 1) = [] then usageCDGo u c else some (u.drop (c + 1))

/-- `\s*(.+)` at `u`. -/
def usageCD (u : List Char) : Option (List Char) := usageCDGo u (wsRun u)

/-- `[:\-]?\s*(.+)`: the optional separator is greedy (consume first). -/
def usageBCD (rest : List Char) : Option (List Char) :=
  match rest with
  | c :: r =>
    if c = ':' ∨ c = '-' then
      match usageCD r with
      | some g => some g
      | none => usageCD rest
    else usageCD rest
  | [] => usageCD []

/-- `[^:\n]*[:\-]?\s*(.+)`: the greedy `[^:\n]*` backtracks from its
maximal run; depth-first order as in the Python regex engine. -/
def usageAGo (t : List Char) : Nat → Option (List Char)
  | 0 => usageBCD t
  | a + 1 =>
    match usageBCD (t.drop (a + 1)) with
    | some g => some g
    | none => usageAGo t a

/-- `USAGE_LINE` (line 60) matched with its start anchored right after a
`usage` literal: returns capture group 1. -/
def usageTail (t : List Char) : Option (List Char) := usageAGo t (nonColonRun t)

/-- `USAGE_LINE.search(line)`: scan for the leftmost `usage` (any case) at
which the rest of the pattern matches; returns capture group 1. -/
def usageLineSearch : List Char → Option (List Char)
  | [] => none
  | c :: r =>
    match wordCIAt ("usage".toList) (c :: r) with
    | some t =>
      match usageTail t with
      | some g => some g
      | none => usageLineSearch r
    | none => usageLineSearch r

/-- Greedy `\d{1,2}` in continuation-passing style: two digits first,
backtracking to one. -/
def d2or1 (s : List Char) (k : List Char → Option α) : Option α :=
  match s with
  | c1 :: rest1 =>
    if c1.isDigit then
      match rest1 with
      | c2 :: rest2 =>
        if c2.isDigit then
          match k rest2 with
          | some v => some v
          | none => k rest1
        else k rest1
      | [] => k rest1
    else none
  | [] => none

/-- Greedy `(?::\d{2})?` in CPS: consume first, backtrack to empty. -/
def optSec (s : List Char) (k : List Char → Option α) : Option α :=
  match s with
  | ':' :: a :: b :: r =>
    if a.isDigit ∧ b.isDigit then
      match k r with
      | some v => some v
      | none => k s
    else k s
  | _ => k s

/-- Character class accepting a dash or a slash. -/
def dashSlash (s : List Char) (k : List Char → Option α) : Option α :=
  match s with
  | c :: r => if c = '-' ∨ c = '/' then k r else none
  | [] => none

/-- `[ T]` under `re.I`: space, `T` or `t`. -/
def spaceT (s : List Char) (k : List Char → Option α) : Option α :=
  match s with
  | c :: r => if c = ' ' ∨ c = 'T' ∨ c = 't' then k r else none
  | [] => none

/-- Literal `:`. -/
def colonLit (s : List Char) (k : List Char → Option α) : Option α :=
  match s with
  | ':' :: r => k r
  | _ => none

/-- `\d{2}`. -/
def twoDigits (s : List Char) (k : List Char → Option α) : Option α :=
  match s with
  | a :: b :: r => if a.isDigit ∧ b.isDigit then k r else none
  | _ => none

/-- `\d{4}`. -/
def fourDigits (s : List Char) (k : List Char → Option α) : Option α :=
  match s with
  | a :: b :: c :: d :: r =>
    if a.isDigit ∧ b.isDigit ∧ c.isDigit ∧ d.isDigit then k r else none
  | _ => none

/-- One side of `DT_PAIR` (lines 61–65): four-digit year, dash-or-slash,
one-or-two-digit month, dash-or-slash, one-or-two-digit day, space-or-T,
one-or-two-digit hour, colon, two-digit minute, optional seconds — in
CPS, so the greedy one-or-two-digit fields and the optional seconds
backtrack against the rest of the pattern exactly as the Python engine
does. -/
def dtSide (s : List Char) (k : List Char → Option α) : Option α :=
  fourDigits s fun r1 =>
  dashSlash r1 fun r2 =>
  d2or1 r2 fun r3 =>
  dashSlash r3 fun r4 =>
  d2or1 r4 fun r5 =>
  spaceT r5 fun r6 =>
  d2or1 r6 fun r7 =>
  colonLit r7 fun r8 =>
  twoDigits r8 fun r9 =>
  optSec r9 k

/-- The range separator `(?:→|to|-|–)` under `re.I`.  The alternatives
start with distinct characters, so the left-to-right choice is
deterministic. -/
def sepMatch (s : List Char) : Option (List Char) :=
  match s with
  | c :: r =>
    if c = '→' ∨ c = '-' ∨ c = '–' then some r
    else if toLowerU c = 't' then
      match r with
      | c2 :: r2 => if toLowerU c2 = 'o' then some r2 else none
      | [] => none
    else none
  | [] => none

/-- `DT_PAIR` attempted at one start position; returns the two capture
groups.  The `\s*` around the separator is deterministic because none of
the separator alternatives starts with a whitespace character. -/
def dtPairAt (s : List Char) : Option (List Char × List Char) :=
  dtSide s fun r1 =>
    let cap1 := s.take (s.length - r1.length)
    let r2 := r1.drop (wsRun r1)
    match sepMatch r2 with
    | none => none
    | some r3 =>
      let r4 := r3.drop (wsRun r3)
      dtSide r4 fun r5 => some (cap1, r4.take (r4.length - r5.length))

/-- `DT_PAIR.search(tail)`: leftmost start position wins. -/
def dtPairSearch : List Char → Option (List Char × List Char)
  | [] => none
  | c :: r =>
    match dtPairAt (c :: r) with
    | some p => some p
    | none => dtPairSearch r

/-- A `(\d{1,2}:\d{2})` clock-time capture in CPS. -/
def clockAt (s : List Char) (k : List Char → Option α) : Option α :=
  d2or1 s fun r1 =>
  colonLit r1 fun r2 =>
  twoDigits r2 k

/-- `\s*(\d{1,2}:\d{2})\s*(?:→|to|-|–)\s*(\d{1,2}:\d{2})` at `u` (the
leading `\s*` is deterministic because a clock time starts with a digit). -/
def timePairCore (u : List Char) : Option (List Char × List Char) :=
  let u1 := u.drop (wsRun u)
  clockAt u1 fun r1 =>
    let cap1 := u1.take (u1.length - r1.length)
    let r2 := r1.drop (wsRun r1)
    match sepMatch r2 with
    | none => none
    | some r3 =>
      let r4 := r3.drop (wsRun r3)
      clockAt r4 fun r5 => some (cap1, r4.take (r4.length - r5.length))

/-- `[:\-]?` of `TIME_PAIR`, consume-first, then the clock pair. -/
def timeB (rest : List Char) : Option (List Char × List Char) :=
  match rest with
  | c :: r =>
    if c = ':' ∨ c = '-' then
      match timePairCore r with
      | some p => some p
      | none => timePairCore rest
    else timePairCore rest
  | [] => timePairCore []

/-- `[^:\n]*` of `TIME_PAIR`, backtracking from its maximal run. -/
def timeAGo (t : List Char) : Nat → Option (List Char × List Char)
  | 0 => timeB t
  | a + 1 =>
    match timeB (t.drop (a + 1)) with
    | some p => some p
    | none => timeAGo t a

/-- `TIME_PAIR` (lines 66–69) anchored right after a `usage` literal. -/
def timeTail (t : List Char) : Option (List Char × List Char) :=
  timeAGo t (nonColonRun t)

/-- `TIME_PAIR.search(line)`: leftmost `usage` at which the rest matches;
returns the two clock-time capture groups. -/
def timePairSearch : List Char → Option (List Char × List Char)
  | [] => none
  | c :: r =>
    match wordCIAt ("usage".toList) (c :: r) with
    | some t =>
      match timeTail t with
      | some p => some p
      | none => timePairSearch r
    | none => timePairSearch r

/-- Result of `usage_override`, with `crash` modelling the uncaught
`ValueError` that `datetime.strptime(..., "%H:%M")` raises on an
out-of-range clock time (lines 105–106 run outside any `try`). -/
inductive UsageRes where
  | found (s e : PyDT)
  | nothing
  | crash
deriving DecidableEq, Repr

/-- Body of the first loop of `usage_override` (lines 94–101): a `usage`
line whose capture contains a full datetime pair both sides of which
`parse_dt` accepts; any failure just moves to the next line. -/
def lineDtOverride (line : List Char) : Option (PyDT × PyDT) :=
  match usageLineSearch line with
  | none => none
  | some tail =>
    match dtPairSearch tail with
    | none => none
    | some p =>
      match parse_dt p.1, parse_dt p.2 with
      | some a, some b => some (a, b)
      | _, _ => none

/-- `usage_override` (lines 92–110): scan `summary + "\n" + desc` line by
line for a full datetime pair; failing that, re-scan for a bare clock-time
pair and combine each time with the date of the respective nominal
endpoint, localized to the configured zone. -/
def usage_override (summary desc : List Char)
    (original_start original_end : PyDOD) : UsageRes :=
  let lines := pySplitlines (summary ++ '\n' :: desc)
  match firstSome lineDtOverride lines with
  | some p => .found p.1 p.2
  | none =>
    match firstSome timePairSearch lines with
    | none => .nothing
    | some p =>
      match strptimeHM p.1, strptimeHM p.2 with
      | some t1, some t2 =>
        .found (tzLocalize (pyCombine (dateOfDOD original_start) t1.1 t1.2))
          (tzLocalize (pyCombine (dateOfDOD original_end) t2.1 t2.2))
      | _, _ => .crash

/-- Layer 1 of `status_from_component` (lines 35–40): the structured
`STATUS` field.  Python's `if s:` skips an absent or empty value; a
present value is stripped, uppercased, and tested for the three
substrings; no hit falls through (`none`). -/
def statusFieldSignal (s? : Option (List Char)) : Option StatusPair :=
  match s? with
  | none => none
  | some s =>
    if s = [] then none
    else
      let sval := (pyStrip s).map toUpperU
      if containsSub sval ("CANCEL".toList) then some stCancelled
      else if containsSub sval ("CONFIRM".toList) then some stConfirmed
      else if containsSub sval ("TENTATIVE".toList) then some stPending
      else none

/-- Layer 2 of `status_from_component` (lines 42–51): category tags.
The source joins the category string values with spaces
(`" ".join(vals)`; the `hasattr`/`except` plumbing only extracts that
list) and tests the three whole-word patterns, cancel first. -/
def categoriesSignal (cats? : Option (List (List Char))) : Option StatusPair :=
  match cats? with
  | none => none
  | some vals =>
    let joined := joinSpace vals
    if reWordSearch CANCEL_PAT joined then some stCancelled
    else if reWordSearch CONFIRM_PAT joined then some stConfirmed
    else if reWordSearch OPTION_PAT joined then some stPending
    else none

/-- The lowercased `summary + "\n" + description` text of layer 3
(line 53; `comp.get` defaults both to `""` here). -/
def freeText (summary? desc? : Option (List Char)) : List Char :=
  ((summary?.getD []) ++ '\n' :: (desc?.getD [])).map toLowerU

/-- Layer 3 of `status_from_component` (lines 53–56): free text. -/
def textSignal (summary? desc? : Option (List Char)) : Option StatusPair :=
  let text := freeText summary? desc?
  if reWordSearch CANCEL_PAT text then some stCancelled
  else if reWordSearch CONFIRM_PAT text then some stConfirmed
  else if reWordSearch OPTION_PAT text then some stPending
  else none

/-- Layers 2–4 of `status_from_component` (lines 42–57): what the
function computes once the structured status field was indecisive. -/
def classifyFromCatsText (ev : RawEvent) : StatusPair :=
  match categoriesSignal ev.categories with
  | some r => r
  | none =>
    match textSignal ev.summary ev.description with
    | some r => r
    | none => stPending

/-- `status_from_component` (lines 33–57): layered first-match-wins
classification with default `("TENTATIVE", "Pending")`. -/
def status_from_component (ev : RawEvent) : StatusPair :=
  match statusFieldSignal ev.status with
  | some r => r
  | none => classifyFromCatsText ev

/-- The output VEVENT built by `main` (lines 158–172). -/
structure OutputEvent where
  uid : List Char
  summary : List Char
  dtstart : PyDT
  dtend : PyDT
  dtstamp : PyDT
  lastModified : PyDT
  status : List Char
  transp : List Char
  location : Option (List Char)
  description : List Char
deriving DecidableEq, Repr

/-- Description field logic of `main` (lines 169–172): pass through when
the text already contains `Status:`, otherwise prepend the header and a
blank line and `str.strip` the result. -/
def descWithStatus (label desc : List Char) : List Char :=
  if containsSub desc ("Status:".toList) then desc
  else pyStrip ("Status: ".toList ++ label ++ '\n' :: '\n' :: desc)

/-- One iteration of `main`'s per-event loop (lines 139–172), from a raw
VEVENT to the output VEVENT.  `none` models an uncaught exception: a
missing `DTSTART`/`DTEND` (`comp.get(...).dt` raises `AttributeError` on
`None`) or a `crash` from `usage_override`. -/
def processEvent (now : PyDT) (ev : RawEvent) : Option OutputEvent :=
  let summary := ev.summary.getD ("Project".toList)
  let desc := ev.description.getD []
  let loc := ev.location.getD []
  match ev.dtstart with
  | none => none
  | some ds0 =>
    match ev.dtend with
    | none => none
    | some de0 =>
      let ds1 := normalizeDOD ds0
      let de1 := normalizeDOD de0
      let sp := status_from_component ev
      let build : PyDT → PyDT → OutputEvent := fun ds de =>
        { uid := ev.uid.getD []
          summary := '[' :: sp.2 ++ ']' :: ' ' :: summary
          dtstart := ds
          dtend := de
          dtstamp := now
          lastModified := now
          status := sp.1
          transp := "OPAQUE".toList
          location := if loc = [] then none else some loc
          description := descWithStatus sp.2 desc }
      match usage_override summary desc (.t ds1) (.t de1) with
      | .crash => none
      | .found a b => some (build a b)
      | .nothing => some (build ds1 de1)

/-- `main`'s walk over the VEVENTs plus the routing of lines 174–182:
Confirmed to the confirmed feed, Cancelled skipped, everything else to
the pending feed.  `none` models a crash of the whole run (no file is
written). -/
def mainLoop (now : PyDT) : List RawEvent → Option (List OutputEvent × List OutputEvent)
  | [] => some ([], [])
  | ev :: rest =>
    match processEvent now ev with
    | none => none
    | some out =>
      match mainLoop now rest with
      | none => none
      | some feeds =>
        if out.status = "CONFIRMED".toList then some (out :: feeds.1, feeds.2)
        else if out.status = "CANCELLED".toList then some feeds
        else some (feeds.1, out :: feeds.2)

/-! Helper lemmas. -/

theorem firstSome_append_none {α β : Type} (f : α → Option β) (pre rest : List α)
    (h : ∀ x ∈ pre, f x = none) :
    firstSome f (pre ++ rest) = firstSome f rest := by
  induction pre with
  | nil => rfl
  | cons a t ih =>
    have ha : f a = none := h a (List.mem_cons_self a t)
    rw [List.cons_append]
    simp only [firstSome, ha]
    exact ih fun x hx => h x (List.mem_cons_of_mem a hx)

theorem statusFieldSignal_cases (s : Option (List Char)) (r : StatusPair)
    (h : statusFieldSignal s = some r) :
    r = stCancelled ∨ r = stConfirmed ∨ r = stPending := by
  unfold statusFieldSignal at h
  cases s with
  | none => exact absurd h (by simp)
  | some v =>
    by_cases hv : v = []
    · simp [hv] at h
    · simp only [if_neg hv] at h
      split_ifs at h with h1 h2 h3 <;> simp_all

theorem categoriesSignal_cases (c : Option (List (List Char))) (r : StatusPair)
    (h : categoriesSignal c = some r) :
    r = stCancelled ∨ r = stConfirmed ∨ r = stPending := by
  unfold categoriesSignal at h
  cases c with
  | none => exact absurd h (by simp)
  | some vals =>
    simp only [] at h
    split_ifs at h with h1 h2 h3 <;> simp_all

theorem textSignal_cases (s d : Option (List Char)) (r : StatusPair)
    (h : textSignal s d = some r) :
    r = stCancelled ∨ r = stConfirmed ∨ r = stPending := by
  unfold textSignal at h
  simp only [] at h
  split_ifs at h with h1 h2 h3 <;> simp_all

/-! Claim theorems. -/

/-- C1: the status classifier is total — for every raw event it returns
exactly one of the three token/label pairs (CONFIRMED/Confirmed,
TENTATIVE/Pending, CANCELLED/Cancelled), and when neither the structured
status field, nor the categories, nor the free text produce a signal it
returns the Pending default. -/
theorem claim_c1 (ev : RawEvent) :
    (status_from_component ev = stConfirmed ∨ status_from_component ev = stPending ∨
      status_from_component ev = stCancelled) ∧
    (statusFieldSignal ev.status = none → categoriesSignal ev.categories = none →
      textSignal ev.summary ev.description = none →
      status_from_component ev = stPending) := by
  constructor
  · unfold status_from_component classifyFromCatsText
    cases hs : statusFieldSignal ev.status with
    | some r => rcases statusFieldSignal_cases _ _ hs with h | h | h <;> simp [h]
    | none =>
      cases hc : categoriesSignal ev.categories with
      | some r => rcases categoriesSignal_cases _ _ hc with h | h | h <;> simp [h]
      | none =>
        cases ht : textSignal ev.summary ev.description with
        | some r => rcases textSignal_cases _ _ _ ht with h | h | h <;> simp [h]
        | none => simp
  · intro h1 h2 h3
    unfold status_from_component classifyFromCatsText
    rw [h1, h2, h3]

/-- An event with no properties at all. -/
def evEmptyW : RawEvent := ⟨none, none, none, none, none, none, none, none⟩

/-- Witness for C1: a fully signal-free event classifies as Pending. -/
theorem claim_c1_witness : status_from_component evEmptyW = stPending :=
  (claim_c1 evEmptyW).2 (by decide) (by decide) (by decide)

/-- An event whose structured status contains both TENTATIVE and CANCEL. -/
def evC3cx : RawEvent :=
  ⟨none, none, none, none, some ("TENTATIVE, CANCELLED".toList), none, none, none⟩

/-- C3 counterexample: a structured status field containing "TENTATIVE"
does not guarantee Pending — the CANCEL substring is tested first, so
status "TENTATIVE, CANCELLED" (no categories, no text) classifies as
Cancelled, not Pending. -/
theorem claim_c3_counterexample :
    containsSub ((pyStrip ("TENTATIVE, CANCELLED".toList)).map toUpperU)
      ("TENTATIVE".toList) = true ∧
    status_from_component evC3cx = stCancelled ∧
    status_from_component evC3cx ≠ stPending := by decide

/-- C3 (amended): for every event whose structured status field
(stripped, uppercased) contains "TENTATIVE" and contains neither
"CANCEL" nor "CONFIRM", the classifier returns Pending regardless of
categories or free text; and for every event whose structured status
field is present (and nonempty) but contains none of the three
substrings, classification proceeds to the category/free-text layers. -/
theorem claim_c3_amended (ev : RawEvent) (v : List Char)
    (hv : ev.status = some v) (hne : v ≠ []) :
    (containsSub ((pyStrip v).map toUpperU) ("TENTATIVE".toList) = true →
      containsSub ((pyStrip v).map toUpperU) ("CANCEL".toList) = false →
      containsSub ((pyStrip v).map toUpperU) ("CONFIRM".toList) = false →
      status_from_component ev = stPending) ∧
    (containsSub ((pyStrip v).map toUpperU) ("CANCEL".toList) = false →
      containsSub ((pyStrip v).map toUpperU) ("CONFIRM".toList) = false →
      containsSub ((pyStrip v).map toUpperU) ("TENTATIVE".toList) = false →
      status_from_component ev = classifyFromCatsText ev) := by
  unfold status_from_component statusFieldSignal
  rw [hv]
  constructor
  · intro h1 h2 h3
    simp only [if_neg hne, h1, h2, h3]
    simp
  · intro h1 h2 h3
    simp only [if_neg hne, h1, h2, h3]
    simp

/-- An event with structured status TENTATIVE and a category containing
"confirmed". -/
def evC3w : RawEvent :=
  ⟨none, none, none, none, some ("TENTATIVE".toList),
    some [("confirmed".toList)], none, none⟩

/-- Witness for C3: structured TENTATIVE beats a "confirmed" category. -/
theorem claim_c3_witness : status_from_component evC3w = stPending :=
  (claim_c3_amended evC3w ("TENTATIVE".toList) rfl (by decide)).1
    (by decide) (by decide) (by decide)

/-- C9: cancellation wins over confirmation in each classification
layer — if the joined category text matches both the cancel and the
confirm pattern the event classifies Cancelled, and likewise for the
lowercased free text when the category layer was indecisive. -/
theorem claim_c9 (ev : RawEvent) :
    (∀ vals, statusFieldSignal ev.status = none → ev.categories = some vals →
      reWordSearch CANCEL_PAT (joinSpace vals) = true →
      reWordSearch CONFIRM_PAT (joinSpace vals) = true →
      status_from_component ev = stCancelled) ∧
    (statusFieldSignal ev.status = none → categoriesSignal ev.categories = none →
      reWordSearch CANCEL_PAT (freeText ev.summary ev.description) = true →
      reWordSearch CONFIRM_PAT (freeText ev.summary ev.description) = true →
      status_from_component ev = stCancelled) := by
  constructor
  · intro vals h0 hc hca _
    unfold status_from_component classifyFromCatsText categoriesSignal
    rw [h0, hc]
    simp [hca]
  · intro h0 hc hca _
    unfold status_from_component classifyFromCatsText textSignal
    rw [h0, hc]
    simp [hca]

/-- An event whose categories contain both a cancel and a confirm word. -/
def evC9w : RawEvent :=
  ⟨none, none, none, none, none,
    some [("cancelled".toList), ("confirmed".toList)], none, none⟩

/-- Witness for C9: categories "cancelled" and "confirmed" classify as
Cancelled. -/
theorem claim_c9_witness : status_from_component evC9w = stCancelled :=
  (claim_c9 evC9w).1 [("cancelled".toList), ("confirmed".toList)]
    (by decide) rfl (by decide) (by decide)

theorem mainLoop_feeds (now : PyDT) (evs : List RawEvent) (cs ps : List OutputEvent)
    (h : mainLoop now evs = some (cs, ps)) :
    (∀ o ∈ cs, o.status = "CONFIRMED".toList) ∧
    (∀ o ∈ ps, o.status ≠ "CONFIRMED".toList ∧ o.status ≠ "CANCELLED".toList) ∧
    (∀ ev ∈ evs, ∀ o, processEvent now ev = some o →
      (o.status = "CONFIRMED".toList → o ∈ cs) ∧
      (o.status ≠ "CONFIRMED".toList → o.status ≠ "CANCELLED".toList → o ∈ ps)) := by
  induction evs generalizing cs ps with
  | nil =>
    simp only [mainLoop, Option.some.injEq, Prod.mk.injEq] at h
    obtain ⟨rfl, rfl⟩ := h
    exact ⟨by simp, by simp, by simp⟩
  | cons ev rest ih =>
    simp only [mainLoop] at h
    cases hpe : processEvent now ev with
    | none => rw [hpe] at h; exact absurd h (by simp)
    | some out =>
      rw [hpe] at h
      cases hml : mainLoop now rest with
      | none => rw [hml] at h; exact absurd h (by simp)
      | some feeds =>
        rw [hml] at h
        obtain ⟨cs0, ps0⟩ := feeds
        simp only [] at h
        obtain ⟨A0, B0, D0⟩ := ih cs0 ps0 hml
        by_cases hcf : out.status = "CONFIRMED".toList
        · rw [if_pos hcf] at h
          simp only [Option.some.injEq, Prod.mk.injEq] at h
          obtain ⟨rfl, rfl⟩ := h
          refine ⟨?_, B0, ?_⟩
          · intro o ho
            rcases List.mem_cons.mp ho with rfl | ho2
            · exact hcf
            · exact A0 o ho2
          · intro ev2 hev2 o hpo
            rcases List.mem_cons.mp hev2 with rfl | hev3
            · rw [hpe] at hpo
              have : out = o := Option.some.inj hpo
              subst this
              exact ⟨fun _ => List.mem_cons_self _ _, fun hnc _ => absurd hcf hnc⟩
            · have := D0 ev2 hev3 o hpo
              exact ⟨fun hc => List.mem_cons_of_mem _ (this.1 hc), this.2⟩
        · rw [if_neg hcf] at h
          by_cases hcc : out.status = "CANCELLED".toList
          · rw [if_pos hcc] at h
            simp only [Option.some.injEq, Prod.mk.injEq] at h
            obtain ⟨rfl, rfl⟩ := h
            refine ⟨A0, B0, ?_⟩
            intro ev2 hev2 o hpo
            rcases List.mem_cons.mp hev2 with rfl | hev3
            · rw [hpe] at hpo
              have : out = o := Option.some.inj hpo
              subst this
              exact ⟨fun hc => absurd hc hcf, fun _ hncc => absurd hcc hncc⟩
            · exact D0 ev2 hev3 o hpo
          · rw [if_neg hcc] at h
            simp only [Option.some.injEq, Prod.mk.injEq] at h
            obtain ⟨rfl, rfl⟩ := h
            refine ⟨A0, ?_, ?_⟩
            · intro o ho
              rcases List.mem_cons.mp ho with rfl | ho2
              · exact ⟨hcf, hcc⟩
              · exact B0 o ho2
            · intro ev2 hev2 o hpo
              rcases List.mem_cons.mp hev2 with rfl | hev3
              · rw [hpe] at hpo
                have : out = o := Option.some.inj hpo
                subst this
                exact ⟨fun hc => absurd hc hcf, fun _ _ => List.mem_cons_self _ _⟩
              · have := D0 ev2 hev3 o hpo
                exact ⟨this.1, fun hnc hncc => List.mem_cons_of_mem _ (this.2 hnc hncc)⟩

/-- C7: in split-feed routing, every event in the confirmed feed has
status CONFIRMED, every event in the pending feed has a status that is
neither CONFIRMED nor CANCELLED, a CANCELLED event appears in neither
feed, and every processed event lands in the feed its status selects —
so each event goes to at most one feed. -/
theorem claim_c7 (now : PyDT) (evs : List RawEvent) (cs ps : List OutputEvent)
    (h : mainLoop now evs = some (cs, ps)) :
    (∀ o ∈ cs, o.status = "CONFIRMED".toList) ∧
    (∀ o ∈ ps, o.status ≠ "CONFIRMED".toList ∧ o.status ≠ "CANCELLED".toList) ∧
    (∀ o : OutputEvent, o.status = "CANCELLED".toList → o ∉ cs ∧ o ∉ ps) ∧
    (∀ ev ∈ evs, ∀ o, processEvent now ev = some o →
      (o.status = "CONFIRMED".toList → o ∈ cs) ∧
      (o.status ≠ "CONFIRMED".toList → o.status ≠ "CANCELLED".toList → o ∈ ps)) := by
  obtain ⟨A, B, D⟩ := mainLoop_feeds now evs cs ps h
  refine ⟨A, B, fun o hc => ⟨fun hm => ?_, fun hm => (B o hm).2 hc⟩, D⟩
  have hA := A o hm
  rw [hc] at hA
  exact absurd hA (by decide)

/-- A fixed run timestamp. -/
def nowW : PyDT := ⟨⟨⟨2025, 1, 1⟩, 0, 0, 0⟩, some (.fixedOffset 0)⟩

/-- An event with structured status CANCELLED. -/
def evC7w : RawEvent :=
  ⟨some ("u7".toList), some ("Gig".toList), none, none, some ("CANCELLED".toList), none,
    some (.d ⟨2024, 5, 1⟩), some (.d ⟨2024, 5, 2⟩)⟩

/-- Witness for C7: a run over one cancelled event produces two empty
feeds, and the routing conclusions hold for it. -/
theorem claim_c7_witness :
    (∀ o ∈ ([] : List OutputEvent), o.status = "CONFIRMED".toList) ∧
    (∀ o ∈ ([] : List OutputEvent),
      o.status ≠ "CONFIRMED".toList ∧ o.status ≠ "CANCELLED".toList) ∧
    (∀ o : OutputEvent, o.status = "CANCELLED".toList →
      o ∉ ([] : List OutputEvent) ∧ o ∉ ([] : List OutputEvent)) ∧
    (∀ ev ∈ [evC7w], ∀ o, processEvent nowW ev = some o →
      (o.status = "CONFIRMED".toList → o ∈ ([] : List OutputEvent)) ∧
      (o.status ≠ "CONFIRMED".toList → o.status ≠ "CANCELLED".toList →
        o ∈ ([] : List OutputEvent))) :=
  claim_c7 nowW [evC7w] [] [] (by decide)

theorem pyRstrip_append (xs ys : List Char) :
    pyRstrip (xs ++ ys) =
      if pyRstrip ys = [] then pyRstrip xs else xs ++ pyRstrip ys := by
  unfold pyRstrip
  rw [List.reverse_append, List.dropWhile_append]
  by_cases hy : List.dropWhile pyIsWs ys.reverse = []
  · rw [if_pos, if_pos]
    · rw [hy, List.reverse_nil]
    · simp [hy]
  · rw [if_neg, if_neg]
    · rw [List.reverse_append]
      simp
    · simp [hy]
    · simp [hy]

theorem containsSub_of_isPrefixOf (m l : List Char) (h : m.isPrefixOf l = true) :
    containsSub l m = true := by
  cases l with
  | nil =>
    cases m with
    | nil => rfl
    | cons a t => simp [List.isPrefixOf] at h
  | cons a t => simp [containsSub, h]

theorem containsSub_self_append (m r : List Char) : containsSub (m ++ r) m = true := by
  apply containsSub_of_isPrefixOf
  rw [List.isPrefixOf_iff_prefix]
  exact List.prefix_append m r

/-- Pass-through branch of the description transform. -/
theorem descWithStatus_of_contains (label d : List Char)
    (h : containsSub d ("Status:".toList) = true) :
    descWithStatus label d = d := by
  unfold descWithStatus
  rw [if_pos h]

/-- The `Status:` marker always survives the strip in the else branch:
the stripped header text has `Status:` as a prefix (or is exactly it). -/
theorem descWithStatus_contains (label desc : List Char) :
    containsSub (descWithStatus label desc) ("Status:".toList) = true := by
  unfold descWithStatus
  by_cases hc : containsSub desc ("Status:".toList) = true
  · rw [if_pos hc]; exact hc
  · rw [if_neg hc]
    have hassoc : "Status: ".toList ++ label ++ '\n' :: '\n' :: desc =
        "Status:".toList ++ (' ' :: (label ++ '\n' :: '\n' :: desc)) := by
      simp
    have hlift : pyLstrip ("Status:".toList ++ (' ' :: (label ++ '\n' :: '\n' :: desc))) =
        "Status:".toList ++ (' ' :: (label ++ '\n' :: '\n' :: desc)) := by
      show List.dropWhile pyIsWs ('S' :: _) = _
      rw [List.dropWhile_cons, if_neg (by decide)]
      rfl
    unfold pyStrip
    rw [hassoc, hlift, pyRstrip_append]
    by_cases he : pyRstrip (' ' :: (label ++ '\n' :: '\n' :: desc)) = []
    · rw [if_pos he]
      have h7 : pyRstrip ("Status:".toList) = "Status:".toList := by decide
      rw [h7]
      have h8 := containsSub_self_append ("Status:".toList) []
      simpa using h8
    · rw [if_neg he]
      exact containsSub_self_append _ _

/-- C8: the description transform is conditional and idempotent — a
description already containing `Status:` passes through unchanged, any
other description gets the `Status: <label>` header, a blank line, and
the original text with trailing whitespace trimmed, and applying the
transform twice equals applying it once. -/
theorem claim_c8 (label desc : List Char) :
    (containsSub desc ("Status:".toList) = true → descWithStatus label desc = desc) ∧
    (containsSub desc ("Status:".toList) = false →
      descWithStatus label desc =
        pyRstrip ("Status: ".toList ++ label ++ '\n' :: '\n' :: desc)) ∧
    descWithStatus label (descWithStatus label desc) = descWithStatus label desc := by
  refine ⟨descWithStatus_of_contains label desc, fun hc => ?_, ?_⟩
  · have hc2 : ¬containsSub desc ("Status:".toList) = true := by
      rw [hc]; decide
    unfold descWithStatus
    rw [if_neg hc2]
    have hassoc : "Status: ".toList ++ label ++ '\n' :: '\n' :: desc =
        "Status:".toList ++ (' ' :: (label ++ '\n' :: '\n' :: desc)) := by
      simp
    have hlift : pyLstrip ("Status:".toList ++ (' ' :: (label ++ '\n' :: '\n' :: desc))) =
        "Status:".toList ++ (' ' :: (label ++ '\n' :: '\n' :: desc)) := by
      show List.dropWhile pyIsWs ('S' :: _) = _
      rw [List.dropWhile_cons, if_neg (by decide)]
      rfl
    unfold pyStrip
    rw [hassoc, hlift]
  · exact descWithStatus_of_contains label _ (descWithStatus_contains label desc)

/-- Witness for C8: a fresh description gets the header, a blank line,
and the right-stripped original text. -/
theorem claim_c8_witness :
    descWithStatus ("Pending".toList) ("hello there  ".toList) =
      pyRstrip ("Status: ".toList ++ "Pending".toList ++
        '\n' :: '\n' :: "hello there  ".toList) :=
  (claim_c8 ("Pending".toList) ("hello there  ".toList)).2.1 (by decide)

/-- An all-day event whose description carries a full usage datetime pair. -/
def evC4 : RawEvent :=
  ⟨some ("u4".toList), some ("Party".toList),
    some ("Usage: 2024-06-01 14:00 → 2024-06-01 22:00".toList),
    none, none, none, some (.d ⟨2024, 6, 1⟩), some (.d ⟨2024, 6, 2⟩)⟩

/-- C4 counterexample: a line with the word `usage`, no separator, and a
full parseable datetime range returns no override — the greedy non-colon
run and optional separator of `USAGE_LINE` consume through the colon
inside `14:00`, truncating the capture; and a line whose first matched
pair fails to parse is abandoned even though a later pair on it parses.
The first conjuncts show the premise of the claim holds of the range
text (a full pair in the accepted forms of the parser), the rest show
the extractor returns nothing. -/
theorem claim_c4_counterexample :
    dtPairSearch ("2024-06-01 14:00 → 2024-06-01 22:00".toList) =
      some ("2024-06-01 14:00".toList, "2024-06-01 22:00".toList) ∧
    parse_dt ("2024-06-01 14:00".toList) =
      some ⟨⟨⟨2024, 6, 1⟩, 14, 0, 0⟩, some .configured⟩ ∧
    parse_dt ("2024-06-01 22:00".toList) =
      some ⟨⟨⟨2024, 6, 1⟩, 22, 0, 0⟩, some .configured⟩ ∧
    usage_override ("Project".toList)
      ("Usage 2024-06-01 14:00 → 2024-06-01 22:00".toList)
      (.d ⟨2024, 6, 1⟩) (.d ⟨2024, 6, 2⟩) = .nothing ∧
    dtPairSearch ("2024-06-01 14:00 to 2024-06-01 22:00".toList) =
      some ("2024-06-01 14:00".toList, "2024-06-01 22:00".toList) ∧
    usage_override ("Project".toList)
      ("Usage: 2024-13-01 14:00 to 2024-06-02 15:00, 2024-06-01 14:00 to 2024-06-01 22:00".toList)
      (.d ⟨2024, 6, 1⟩) (.d ⟨2024, 6, 2⟩) = .nothing :=
  ⟨by decide, by decide, by decide, by decide, by decide, by decide⟩

/-- C4 (amended): the override comes from the first line, in document
order, whose `USAGE_LINE` capture contains a `DT_PAIR` match both sides
of which `parse_dt` accepts — earlier lines contributing nothing; a line
whose first matched pair fails to parse contributes nothing at all, even
if a later pair on it would parse; when `usage` is followed by the range
directly with no separator, the greedy prefix truncates the capture at
the colon inside the first time (capture `00 → 2024-06-01 22:00`), which
contains no full pair; and on the example of the spec (with the `:` separator),
a nominal all-day event with description
`Usage: 2024-06-01 14:00 → 2024-06-01 22:00` produces an output window of
exactly 14:00–22:00 on 2024-06-01 in the configured zone. -/
theorem claim_c4_amended :
    (∀ summary desc os oe pre l post tail c1 c2 a b,
      pySplitlines (summary ++ '\n' :: desc) = pre ++ l :: post →
      (∀ l2 ∈ pre, lineDtOverride l2 = none) →
      usageLineSearch l = some tail →
      dtPairSearch tail = some (c1, c2) →
      parse_dt c1 = some a → parse_dt c2 = some b →
      usage_override summary desc os oe = .found a b) ∧
    (∀ l tail c1 c2, usageLineSearch l = some tail →
      dtPairSearch tail = some (c1, c2) →
      parse_dt c1 = none ∨ parse_dt c2 = none →
      lineDtOverride l = none) ∧
    (usageLineSearch ("Usage 2024-06-01 14:00 → 2024-06-01 22:00".toList) =
        some ("00 → 2024-06-01 22:00".toList) ∧
      dtPairSearch ("00 → 2024-06-01 22:00".toList) = none) ∧
    ((processEvent nowW evC4).map (fun o => o.dtstart) =
        some ⟨⟨⟨2024, 6, 1⟩, 14, 0, 0⟩, some .configured⟩ ∧
      (processEvent nowW evC4).map (fun o => o.dtend) =
        some ⟨⟨⟨2024, 6, 1⟩, 22, 0, 0⟩, some .configured⟩) := by
  refine ⟨?_, ?_, ⟨by decide, by decide⟩, ⟨by decide, by decide⟩⟩
  · intro summary desc os oe pre l post tail c1 c2 a b hsplit hpre htail hdt hp1 hp2
    have hl : lineDtOverride l = some (a, b) := by
      unfold lineDtOverride
      rw [htail]
      simp only []
      rw [hdt]
      simp only []
      rw [hp1, hp2]
    unfold usage_override
    rw [hsplit]
    simp only []
    rw [firstSome_append_none _ pre _ hpre]
    simp only [firstSome, hl]
  · intro l tail c1 c2 htail hdt hne
    unfold lineDtOverride
    rw [htail]
    simp only []
    rw [hdt]
    simp only []
    rcases hne with h | h
    · rw [h]
    · rw [h]
      cases parse_dt c1 <;> rfl

/-- Witness for C4: the example usage line after an inert summary line. -/
theorem claim_c4_witness :
    usage_override ("X".toList)
      ("Usage: 2024-06-01 14:00 → 2024-06-01 22:00".toList)
      (.d ⟨2024, 6, 1⟩) (.d ⟨2024, 6, 2⟩) =
      .found ⟨⟨⟨2024, 6, 1⟩, 14, 0, 0⟩, some .configured⟩
        ⟨⟨⟨2024, 6, 1⟩, 22, 0, 0⟩, some .configured⟩ :=
  claim_c4_amended.1 ("X".toList)
    ("Usage: 2024-06-01 14:00 → 2024-06-01 22:00".toList)
    (.d ⟨2024, 6, 1⟩) (.d ⟨2024, 6, 2⟩)
    ["X".toList] ("Usage: 2024-06-01 14:00 → 2024-06-01 22:00".toList) []
    ("2024-06-01 14:00 → 2024-06-01 22:00".toList)
    ("2024-06-01 14:00".toList) ("2024-06-01 22:00".toList)
    ⟨⟨⟨2024, 6, 1⟩, 14, 0, 0⟩, some .configured⟩
    ⟨⟨⟨2024, 6, 1⟩, 22, 0, 0⟩, some .configured⟩
    (by decide) (by decide) (by decide) (by decide) (by decide) (by decide)

/-- C5: when no full datetime pair is found anywhere, the bare clock-time
usage line `Usage 09:00-17:00` combines 09:00 with the date of the
nominal start and 17:00 with the date of the nominal end, each localized
to the configured zone — whether the nominal endpoints are date-only or
datetimes (only their date components matter). -/
theorem claim_c5 (summary : List Char) (os oe : PyDOD) (pre : List (List Char))
    (hsplit : pySplitlines (summary ++ '\n' :: "Usage 09:00-17:00".toList) =
      pre ++ ["Usage 09:00-17:00".toList])
    (hpre : ∀ l2 ∈ pre, lineDtOverride l2 = none ∧ timePairSearch l2 = none)
    (hos : dateOfDOD os = ⟨2024, 7, 10⟩) (hoe : dateOfDOD oe = ⟨2024, 7, 11⟩) :
    usage_override summary ("Usage 09:00-17:00".toList) os oe =
      .found ⟨⟨⟨2024, 7, 10⟩, 9, 0, 0⟩, some .configured⟩
        ⟨⟨⟨2024, 7, 11⟩, 17, 0, 0⟩, some .configured⟩ := by
  unfold usage_override
  rw [hsplit]
  simp only []
  rw [firstSome_append_none _ pre _ (fun x hx => (hpre x hx).1)]
  rw [firstSome_append_none _ pre _ (fun x hx => (hpre x hx).2)]
  rw [show firstSome lineDtOverride [("Usage 09:00-17:00".toList)] = none from by decide]
  rw [show firstSome timePairSearch [("Usage 09:00-17:00".toList)] =
    some ("9:00".toList, "17:00".toList) from by decide]
  simp only []
  rw [show strptimeHM ("9:00".toList) = some (9, 0) from by decide]
  rw [show strptimeHM ("17:00".toList) = some (17, 0) from by decide]
  rw [hos, hoe]
  rfl

/-- Witness for C5: date-only nominal start, datetime nominal end. -/
theorem claim_c5_witness :
    usage_override ("Project".toList) ("Usage 09:00-17:00".toList)
      (.d ⟨2024, 7, 10⟩) (.t ⟨⟨⟨2024, 7, 11⟩, 8, 30, 0⟩, none⟩) =
      .found ⟨⟨⟨2024, 7, 10⟩, 9, 0, 0⟩, some .configured⟩
        ⟨⟨⟨2024, 7, 11⟩, 17, 0, 0⟩, some .configured⟩ :=
  claim_c5 ("Project".toList) (.d ⟨2024, 7, 10⟩)
    (.t ⟨⟨⟨2024, 7, 11⟩, 8, 30, 0⟩, none⟩) ["Project".toList]
    (by decide) (by decide) (by decide) (by decide)

/-- Lexicographic ordinal of a naive datetime, for comparing the output
window's endpoints. -/
def toOrdinal (n : NaiveDT) : Nat :=
  ((((n.date.year * 13 + n.date.month) * 32 + n.date.day) * 24 + n.hour) * 60 +
      n.minute) * 60 + n.second

/-- A single-day all-day event with an inverted usage window. -/
def evC10 : RawEvent :=
  ⟨some ("u10".toList), some ("Booking".toList), some ("Usage: 17:00-09:00".toList),
    none, none, none, some (.d ⟨2024, 7, 10⟩), some (.d ⟨2024, 7, 10⟩)⟩

/-- C10: no temporal-order validation — the description
`Usage: 17:00-09:00` on a single-day event yields an output event whose
end (09:00) is strictly before its start (17:00), emitted unchanged. -/
theorem claim_c10 :
    (processEvent nowW evC10).map (fun o => o.dtstart) =
      some ⟨⟨⟨2024, 7, 10⟩, 17, 0, 0⟩, some .configured⟩ ∧
    (processEvent nowW evC10).map (fun o => o.dtend) =
      some ⟨⟨⟨2024, 7, 10⟩, 9, 0, 0⟩, some .configured⟩ ∧
    ((processEvent nowW evC10).map fun o =>
      decide (toOrdinal o.dtend.wall < toOrdinal o.dtstart.wall)) = some true :=
  ⟨by decide, by decide, by decide⟩

/-- A minimal event: only the mandatory window fields are present. -/
def evC2min : RawEvent :=
  ⟨none, none, none, none, none, none, some (.d ⟨2024, 1, 2⟩), some (.d ⟨2024, 1, 3⟩)⟩

/-- C2 (amended): per-event processing cannot fail as long as the event
has both `DTSTART` and `DTEND` and its usage scan does not hit the
unguarded clock-time `strptime`; in that case it yields exactly one
output event, and an event with every optional field absent still
produces an output built entirely from the fallbacks (summary `Project`,
empty uid, Pending status, no location, synthesized description). -/
theorem claim_c2_amended :
    (∀ (now : PyDT) (ev : RawEvent) (ds de : PyDOD),
      ev.dtstart = some ds → ev.dtend = some de →
      usage_override (ev.summary.getD ("Project".toList)) (ev.description.getD [])
        (.t (normalizeDOD ds)) (.t (normalizeDOD de)) ≠ .crash →
      ∃ o, processEvent now ev = some o) ∧
    processEvent nowW evC2min = some
      { uid := []
        summary := "[Pending] Project".toList
        dtstart := ⟨⟨⟨2024, 1, 2⟩, 0, 0, 0⟩, some .configured⟩
        dtend := ⟨⟨⟨2024, 1, 3⟩, 0, 0, 0⟩, some .configured⟩
        dtstamp := nowW
        lastModified := nowW
        status := "TENTATIVE".toList
        transp := "OPAQUE".toList
        location := none
        description := "Status: Pending".toList } := by
  constructor
  · intro now ev ds de h1 h2 h3
    unfold processEvent
    rw [h1, h2]
    simp only []
    cases hu : usage_override (ev.summary.getD ("Project".toList)) (ev.description.getD [])
        (.t (normalizeDOD ds)) (.t (normalizeDOD de)) with
    | crash => exact absurd hu h3
    | found a b => exact ⟨_, rfl⟩
    | nothing => exact ⟨_, rfl⟩
  · decide

/-- An event with `DTEND` missing. -/
def evC2noEnd : RawEvent :=
  ⟨some ("u2".toList), some ("Show".toList), some ("notes".toList), none, none, none,
    some (.d ⟨2024, 3, 1⟩), none⟩

/-- An event whose usage line has an out-of-range clock time. -/
def evC2bad : RawEvent :=
  ⟨some ("u2b".toList), some ("Show".toList), some ("Usage 10:60-17:00".toList), none, none,
    none, some (.d ⟨2024, 3, 1⟩), some (.d ⟨2024, 3, 2⟩)⟩

/-- C2 counterexample: per-event processing is not crash-free — a missing
`DTEND` makes `comp.get("dtend").dt` raise, and the description
`Usage 10:60-17:00` makes the unguarded `strptime("0:60", "%H:%M")` of
the clock-time branch raise, so neither event yields an output event. -/
theorem claim_c2_counterexample :
    processEvent nowW evC2noEnd = none ∧ processEvent nowW evC2bad = none :=
  ⟨by decide, by decide⟩

/-- An ordinary event with both window fields and a harmless description. -/
def evC2w : RawEvent :=
  ⟨none, some ("Hi".toList), some ("notes".toList), none, none, none,
    some (.d ⟨2024, 6, 5⟩), some (.d ⟨2024, 6, 6⟩)⟩

/-- Witness for C2: an event satisfying the amended conditions yields an
output event. -/
theorem claim_c2_witness : ∃ o, processEvent nowW evC2w = some o :=
  claim_c2_amended.1 nowW evC2w (.d ⟨2024, 6, 5⟩) (.d ⟨2024, 6, 6⟩) rfl rfl (by decide)

theorem digit_not_ws (c : Char) (h : c.isDigit = true) : pyIsWs c = false := by
  cases hx : pyIsWs c
  · rfl
  · unfold pyIsWs at hx
    simp only [Bool.or_eq_true, decide_eq_true_eq] at hx
    rcases hx with ((((rfl | rfl) | rfl) | rfl) | rfl) | rfl <;> exact absurd h (by decide)

theorem digit_ne_char (c a : Char) (h : c.isDigit = true) (ha : a.isDigit = false) :
    ¬(c = a) := by
  intro he
  subst he
  rw [h] at ha
  simp at ha

theorem replaceZ_cons (c : Char) (r : List Char) :
    replaceZ (c :: r) = (if c = 'Z' then "+00:00".toList else [c]) ++ replaceZ r := by
  unfold replaceZ
  rw [List.flatMap_cons]

theorem replaceZ_nil : replaceZ [] = [] := rfl

theorem replaceZ_append (a b : List Char) :
    replaceZ (a ++ b) = replaceZ a ++ replaceZ b := by
  unfold replaceZ
  rw [List.flatMap_append]

theorem replaceZ_of_no_z (x : List Char) (h : ∀ c ∈ x, ¬(c = 'Z')) : replaceZ x = x := by
  induction x with
  | nil => rfl
  | cons c r ih =>
    rw [replaceZ_cons, if_neg (h c (List.mem_cons_self c r))]
    rw [ih fun d hd => h d (List.mem_cons_of_mem c hd)]
    rfl

theorem replaceZ_idem (x : List Char) : replaceZ (replaceZ x) = replaceZ x := by
  induction x with
  | nil => rfl
  | cons c r ih =>
    rw [replaceZ_cons, replaceZ_append, ih]
    by_cases hc : c = 'Z'
    · rw [if_pos hc, show replaceZ ("+00:00".toList) = "+00:00".toList from by decide]
    · rw [if_neg hc, replaceZ_cons, replaceZ_nil, if_neg hc]
      simp

theorem pyLstrip_cons_digit (c : Char) (h : c.isDigit = true) (r : List Char) :
    pyLstrip (c :: r) = c :: r := by
  unfold pyLstrip
  rw [List.dropWhile_cons, if_neg (by simp [digit_not_ws c h])]

theorem pyRstrip_eq_self (s : List Char)
    (h : ∀ c, s.getLast? = some c → pyIsWs c = false) : pyRstrip s = s := by
  unfold pyRstrip
  cases hr : s.reverse with
  | nil =>
    simp [List.reverse_eq_nil_iff.mp hr]
  | cons a t =>
    have hl : s.getLast? = some a := by
      rw [← List.head?_reverse, hr]
      rfl
    rw [List.dropWhile_cons, if_neg (by simp [h a hl])]
    rw [← hr, List.reverse_reverse]

theorem isoOffset_plus (o1 o2 o3 o4 : Char)
    (g1 : o1.isDigit = true) (g2 : o2.isDigit = true)
    (g3 : o3.isDigit = true) (g4 : o4.isDigit = true)
    (hov1 : digitVal o1 * 10 + digitVal o2 ≤ 23)
    (hov2 : digitVal o3 * 10 + digitVal o4 ≤ 59) :
    isoOffset ['+', o1, o2, ':', o3, o4] =
      some (some (.fixedOffset ((digitVal o1 * 10 + digitVal o2) * 60 +
        (digitVal o3 * 10 + digitVal o4) : Nat))) := by
  unfold isoOffset
  simp only []
  rw [if_pos ⟨Or.inl trivial, g1, g2, g3, g4⟩]
  rw [if_pos ⟨hov1, hov2⟩]
  rw [if_neg (by decide), one_mul]

theorem isoTime_family (h1 h2 n1 n2 o1 o2 o3 o4 : Char)
    (f1 : h1.isDigit = true) (f2 : h2.isDigit = true)
    (f3 : n1.isDigit = true) (f4 : n2.isDigit = true)
    (g1 : o1.isDigit = true) (g2 : o2.isDigit = true)
    (g3 : o3.isDigit = true) (g4 : o4.isDigit = true)
    (hhv : digitVal h1 * 10 + digitVal h2 ≤ 23)
    (hnv : digitVal n1 * 10 + digitVal n2 ≤ 59)
    (hov1 : digitVal o1 * 10 + digitVal o2 ≤ 23)
    (hov2 : digitVal o3 * 10 + digitVal o4 ≤ 59) :
    isoTimeParse [h1, h2, ':', n1, n2, '+', o1, o2, ':', o3, o4] =
      some (digitVal h1 * 10 + digitVal h2, digitVal n1 * 10 + digitVal n2, 0,
        some (.fixedOffset ((digitVal o1 * 10 + digitVal o2) * 60 +
          (digitVal o3 * 10 + digitVal o4) : Nat))) := by
  unfold isoTimeParse
  simp only []
  rw [if_pos ⟨f1, f2⟩]
  rw [if_pos hhv]
  rw [if_pos ⟨f3, f4⟩]
  rw [if_pos hnv]
  rw [isoOffset_plus o1 o2 o3 o4 g1 g2 g3 g4 hov1 hov2]
  rfl

theorem fromiso_family (y1 y2 y3 y4 m1 m2 d1 d2 h1 h2 n1 n2 o1 o2 o3 o4 : Char)
    (e1 : y1.isDigit = true) (e2 : y2.isDigit = true)
    (e3 : y3.isDigit = true) (e4 : y4.isDigit = true)
    (e5 : m1.isDigit = true) (e6 : m2.isDigit = true)
    (e7 : d1.isDigit = true) (e8 : d2.isDigit = true)
    (f1 : h1.isDigit = true) (f2 : h2.isDigit = true)
    (f3 : n1.isDigit = true) (f4 : n2.isDigit = true)
    (g1 : o1.isDigit = true) (g2 : o2.isDigit = true)
    (g3 : o3.isDigit = true) (g4 : o4.isDigit = true)
    (hyv : 1 ≤ digitVal y1 * 1000 + digitVal y2 * 100 + digitVal y3 * 10 + digitVal y4)
    (hmv1 : 1 ≤ digitVal m1 * 10 + digitVal m2)
    (hmv2 : digitVal m1 * 10 + digitVal m2 ≤ 12)
    (hdv1 : 1 ≤ digitVal d1 * 10 + digitVal d2)
    (hdv2 : digitVal d1 * 10 + digitVal d2 ≤
      daysInMonth (digitVal y1 * 1000 + digitVal y2 * 100 + digitVal y3 * 10 + digitVal y4)
        (digitVal m1 * 10 + digitVal m2))
    (hhv : digitVal h1 * 10 + digitVal h2 ≤ 23)
    (hnv : digitVal n1 * 10 + digitVal n2 ≤ 59)
    (hov1 : digitVal o1 * 10 + digitVal o2 ≤ 23)
    (hov2 : digitVal o3 * 10 + digitVal o4 ≤ 59) :
    fromisoformatM [y1, y2, y3, y4, '-', m1, m2, '-', d1, d2, 'T', h1, h2, ':',
        n1, n2, '+', o1, o2, ':', o3, o4] =
      some ⟨⟨⟨digitVal y1 * 1000 + digitVal y2 * 100 + digitVal y3 * 10 + digitVal y4,
          digitVal m1 * 10 + digitVal m2, digitVal d1 * 10 + digitVal d2⟩,
          digitVal h1 * 10 + digitVal h2, digitVal n1 * 10 + digitVal n2, 0⟩,
        some (.fixedOffset ((digitVal o1 * 10 + digitVal o2) * 60 +
          (digitVal o3 * 10 + digitVal o4) : Nat))⟩ := by
  unfold fromisoformatM
  simp only []
  rw [if_pos ⟨e1, e2, e3, e4, e5, e6, e7, e8⟩]
  rw [if_pos ⟨hyv, hmv1, hmv2, hdv1, hdv2⟩]
  rw [isoTime_family h1 h2 n1 n2 o1 o2 o3 o4 f1 f2 f3 f4 g1 g2 g3 g4 hhv hnv hov1 hov2]
  rfl

theorem parse_dt_z (y1 y2 y3 y4 m1 m2 d1 d2 h1 h2 n1 n2 : Char)
    (e1 : y1.isDigit = true) (e2 : y2.isDigit = true)
    (e3 : y3.isDigit = true) (e4 : y4.isDigit = true)
    (e5 : m1.isDigit = true) (e6 : m2.isDigit = true)
    (e7 : d1.isDigit = true) (e8 : d2.isDigit = true)
    (f1 : h1.isDigit = true) (f2 : h2.isDigit = true)
    (f3 : n1.isDigit = true) (f4 : n2.isDigit = true)
    (hyv : 1 ≤ digitVal y1 * 1000 + digitVal y2 * 100 + digitVal y3 * 10 + digitVal y4)
    (hmv1 : 1 ≤ digitVal m1 * 10 + digitVal m2)
    (hmv2 : digitVal m1 * 10 + digitVal m2 ≤ 12)
    (hdv1 : 1 ≤ digitVal d1 * 10 + digitVal d2)
    (hdv2 : digitVal d1 * 10 + digitVal d2 ≤
      daysInMonth (digitVal y1 * 1000 + digitVal y2 * 100 + digitVal y3 * 10 + digitVal y4)
        (digitVal m1 * 10 + digitVal m2))
    (hhv : digitVal h1 * 10 + digitVal h2 ≤ 23)
    (hnv : digitVal n1 * 10 + digitVal n2 ≤ 59) :
    parse_dt [y1, y2, y3, y4, '-', m1, m2, '-', d1, d2, 'T', h1, h2, ':', n1, n2, 'Z'] =
      some ⟨⟨⟨digitVal y1 * 1000 + digitVal y2 * 100 + digitVal y3 * 10 + digitVal y4,
          digitVal m1 * 10 + digitVal m2, digitVal d1 * 10 + digitVal d2⟩,
          digitVal h1 * 10 + digitVal h2, digitVal n1 * 10 + digitVal n2, 0⟩,
        some (.fixedOffset 0)⟩ := by
  have hnoz : ∀ c ∈ [y1, y2, y3, y4, '-', m1, m2, '-', d1, d2, 'T', h1, h2, ':', n1, n2],
      ¬(c = 'Z') := by
    intro c hc
    simp only [List.mem_cons, List.not_mem_nil, or_false] at hc
    rcases hc with rfl|rfl|rfl|rfl|rfl|rfl|rfl|rfl|rfl|rfl|rfl|rfl|rfl|rfl|rfl|rfl <;>
      first
        | decide
        | exact digit_ne_char _ 'Z' (by assumption) (by decide)
  have hstrip : pyStrip
      [y1, y2, y3, y4, '-', m1, m2, '-', d1, d2, 'T', h1, h2, ':', n1, n2, 'Z'] =
      [y1, y2, y3, y4, '-', m1, m2, '-', d1, d2, 'T', h1, h2, ':', n1, n2, 'Z'] := by
    unfold pyStrip
    rw [pyLstrip_cons_digit y1 e1]
    refine pyRstrip_eq_self _ fun c hc => ?_
    rw [show ([y1, y2, y3, y4, '-', m1, m2, '-', d1, d2, 'T', h1, h2, ':', n1, n2,
      'Z'] : List Char).getLast? = some 'Z' from rfl] at hc
    injection hc with hc2
    rw [← hc2]
    rfl
  have hs : replaceZ (pyStrip
      [y1, y2, y3, y4, '-', m1, m2, '-', d1, d2, 'T', h1, h2, ':', n1, n2, 'Z']) =
      [y1, y2, y3, y4, '-', m1, m2, '-', d1, d2, 'T', h1, h2, ':', n1, n2,
        '+', '0', '0', ':', '0', '0'] := by
    rw [hstrip]
    rw [show ([y1, y2, y3, y4, '-', m1, m2, '-', d1, d2, 'T', h1, h2, ':', n1, n2,
      'Z'] : List Char) =
      [y1, y2, y3, y4, '-', m1, m2, '-', d1, d2, 'T', h1, h2, ':', n1, n2] ++ ['Z']
      from rfl]
    rw [replaceZ_append, replaceZ_of_no_z _ hnoz]
    rfl
  have hidem : replaceZ
      [y1, y2, y3, y4, '-', m1, m2, '-', d1, d2, 'T', h1, h2, ':', n1, n2,
        '+', '0', '0', ':', '0', '0'] =
      [y1, y2, y3, y4, '-', m1, m2, '-', d1, d2, 'T', h1, h2, ':', n1, n2,
        '+', '0', '0', ':', '0', '0'] := by
    conv_lhs => rw [← hs]
    conv_rhs => rw [← hs]
    exact replaceZ_idem _
  unfold parse_dt
  simp only []
  rw [hs]
  rw [if_pos ⟨List.elem_eq_true_of_mem (by simp),
    Or.inl (List.elem_eq_true_of_mem (by simp))⟩]
  rw [hidem]
  rw [fromiso_family y1 y2 y3 y4 m1 m2 d1 d2 h1 h2 n1 n2 '0' '0' '0' '0'
    e1 e2 e3 e4 e5 e6 e7 e8 f1 f2 f3 f4 (by decide) (by decide) (by decide) (by decide)
    hyv hmv1 hmv2 hdv1 hdv2 hhv hnv (by decide) (by decide)]
  rfl

theorem parse_dt_plus (y1 y2 y3 y4 m1 m2 d1 d2 h1 h2 n1 n2 o1 o2 o3 o4 : Char)
    (e1 : y1.isDigit = true) (e2 : y2.isDigit = true)
    (e3 : y3.isDigit = true) (e4 : y4.isDigit = true)
    (e5 : m1.isDigit = true) (e6 : m2.isDigit = true)
    (e7 : d1.isDigit = true) (e8 : d2.isDigit = true)
    (f1 : h1.isDigit = true) (f2 : h2.isDigit = true)
    (f3 : n1.isDigit = true) (f4 : n2.isDigit = true)
    (g1 : o1.isDigit = true) (g2 : o2.isDigit = true)
    (g3 : o3.isDigit = true) (g4 : o4.isDigit = true)
    (hyv : 1 ≤ digitVal y1 * 1000 + digitVal y2 * 100 + digitVal y3 * 10 + digitVal y4)
    (hmv1 : 1 ≤ digitVal m1 * 10 + digitVal m2)
    (hmv2 : digitVal m1 * 10 + digitVal m2 ≤ 12)
    (hdv1 : 1 ≤ digitVal d1 * 10 + digitVal d2)
    (hdv2 : digitVal d1 * 10 + digitVal d2 ≤
      daysInMonth (digitVal y1 * 1000 + digitVal y2 * 100 + digitVal y3 * 10 + digitVal y4)
        (digitVal m1 * 10 + digitVal m2))
    (hhv : digitVal h1 * 10 + digitVal h2 ≤ 23)
    (hnv : digitVal n1 * 10 + digitVal n2 ≤ 59)
    (hov1 : digitVal o1 * 10 + digitVal o2 ≤ 23)
    (hov2 : digitVal o3 * 10 + digitVal o4 ≤ 59) :
    parse_dt [y1, y2, y3, y4, '-', m1, m2, '-', d1, d2, 'T', h1, h2, ':', n1, n2,
        '+', o1, o2, ':', o3, o4] =
      some ⟨⟨⟨digitVal y1 * 1000 + digitVal y2 * 100 + digitVal y3 * 10 + digitVal y4,
          digitVal m1 * 10 + digitVal m2, digitVal d1 * 10 + digitVal d2⟩,
          digitVal h1 * 10 + digitVal h2, digitVal n1 * 10 + digitVal n2, 0⟩,
        some (.fixedOffset ((digitVal o1 * 10 + digitVal o2) * 60 +
          (digitVal o3 * 10 + digitVal o4) : Nat))⟩ := by
  have hnoz : ∀ c ∈ [y1, y2, y3, y4, '-', m1, m2, '-', d1, d2, 'T', h1, h2, ':', n1, n2,
      '+', o1, o2, ':', o3, o4], ¬(c = 'Z') := by
    intro c hc
    simp only [List.mem_cons, List.not_mem_nil, or_false] at hc
    rcases hc with
      rfl|rfl|rfl|rfl|rfl|rfl|rfl|rfl|rfl|rfl|rfl|rfl|rfl|rfl|rfl|rfl|rfl|rfl|rfl|rfl|rfl|rfl <;>
      first
        | decide
        | exact digit_ne_char _ 'Z' (by assumption) (by decide)
  have hstrip : pyStrip
      [y1, y2, y3, y4, '-', m1, m2, '-', d1, d2, 'T', h1, h2, ':', n1, n2,
        '+', o1, o2, ':', o3, o4] =
      [y1, y2, y3, y4, '-', m1, m2, '-', d1, d2, 'T', h1, h2, ':', n1, n2,
        '+', o1, o2, ':', o3, o4] := by
    unfold pyStrip
    rw [pyLstrip_cons_digit y1 e1]
    refine pyRstrip_eq_self _ fun c hc => ?_
    rw [show ([y1, y2, y3, y4, '-', m1, m2, '-', d1, d2, 'T', h1, h2, ':', n1, n2,
      '+', o1, o2, ':', o3, o4] : List Char).getLast? = some o4 from rfl] at hc
    injection hc with hc2
    rw [← hc2]
    exact digit_not_ws o4 g4
  have hs : replaceZ (pyStrip
      [y1, y2, y3, y4, '-', m1, m2, '-', d1, d2, 'T', h1, h2, ':', n1, n2,
        '+', o1, o2, ':', o3, o4]) =
      [y1, y2, y3, y4, '-', m1, m2, '-', d1, d2, 'T', h1, h2, ':', n1, n2,
        '+', o1, o2, ':', o3, o4] := by
    rw [hstrip]
    exact replaceZ_of_no_z _ hnoz
  unfold parse_dt
  simp only []
  rw [hs]
  rw [if_pos ⟨List.elem_eq_true_of_mem (by simp),
    Or.inl (List.elem_eq_true_of_mem (by simp))⟩]
  rw [replaceZ_of_no_z _ hnoz]
  rw [fromiso_family y1 y2 y3 y4 m1 m2 d1 d2 h1 h2 n1 n2 o1 o2 o3 o4
    e1 e2 e3 e4 e5 e6 e7 e8 f1 f2 f3 f4 g1 g2 g3 g4
    hyv hmv1 hmv2 hdv1 hdv2 hhv hnv hov1 hov2]
  rfl

/-- C6 counterexample: an ISO-like string carrying a negative numeric UTC
offset is not parsed as an absolute instant — the ISO branch requires a
`+` (or trailing `Z`), so `2024-06-01T14:00-07:00` falls through to the
naive formats, none of which match, and the parser returns nothing. -/
theorem claim_c6_counterexample :
    parse_dt ("2024-06-01T14:00-07:00".toList) = none := by decide

/-- C6 (amended): for every ISO-like string `YYYY-MM-DDTHH:MM` (calendar
components in range) carrying a trailing `Z` or an explicit positive
`+HH:MM` offset, `parse_dt` returns the absolute instant the string
denotes, preserving its offset instead of localizing; and an input
matching no accepted form yields `none` (failure is reported, never
raised — the function is total by construction). -/
theorem claim_c6_amended :
    (∀ (y1 y2 y3 y4 m1 m2 d1 d2 h1 h2 n1 n2 : Char),
      y1.isDigit = true → y2.isDigit = true → y3.isDigit = true → y4.isDigit = true →
      m1.isDigit = true → m2.isDigit = true → d1.isDigit = true → d2.isDigit = true →
      h1.isDigit = true → h2.isDigit = true → n1.isDigit = true → n2.isDigit = true →
      1 ≤ digitVal y1 * 1000 + digitVal y2 * 100 + digitVal y3 * 10 + digitVal y4 →
      1 ≤ digitVal m1 * 10 + digitVal m2 →
      digitVal m1 * 10 + digitVal m2 ≤ 12 →
      1 ≤ digitVal d1 * 10 + digitVal d2 →
      digitVal d1 * 10 + digitVal d2 ≤
        daysInMonth (digitVal y1 * 1000 + digitVal y2 * 100 + digitVal y3 * 10 + digitVal y4)
          (digitVal m1 * 10 + digitVal m2) →
      digitVal h1 * 10 + digitVal h2 ≤ 23 →
      digitVal n1 * 10 + digitVal n2 ≤ 59 →
      parse_dt [y1, y2, y3, y4, '-', m1, m2, '-', d1, d2, 'T', h1, h2, ':', n1, n2, 'Z'] =
        some ⟨⟨⟨digitVal y1 * 1000 + digitVal y2 * 100 + digitVal y3 * 10 + digitVal y4,
            digitVal m1 * 10 + digitVal m2, digitVal d1 * 10 + digitVal d2⟩,
            digitVal h1 * 10 + digitVal h2, digitVal n1 * 10 + digitVal n2, 0⟩,
          some (.fixedOffset 0)⟩) ∧
    (∀ (y1 y2 y3 y4 m1 m2 d1 d2 h1 h2 n1 n2 o1 o2 o3 o4 : Char),
      y1.isDigit = true → y2.isDigit = true → y3.isDigit = true → y4.isDigit = true →
      m1.isDigit = true → m2.isDigit = true → d1.isDigit = true → d2.isDigit = true →
      h1.isDigit = true → h2.isDigit = true → n1.isDigit = true → n2.isDigit = true →
      o1.isDigit = true → o2.isDigit = true → o3.isDigit = true → o4.isDigit = true →
      1 ≤ digitVal y1 * 1000 + digitVal y2 * 100 + digitVal y3 * 10 + digitVal y4 →
      1 ≤ digitVal m1 * 10 + digitVal m2 →
      digitVal m1 * 10 + digitVal m2 ≤ 12 →
      1 ≤ digitVal d1 * 10 + digitVal d2 →
      digitVal d1 * 10 + digitVal d2 ≤
        daysInMonth (digitVal y1 * 1000 + digitVal y2 * 100 + digitVal y3 * 10 + digitVal y4)
          (digitVal m1 * 10 + digitVal m2) →
      digitVal h1 * 10 + digitVal h2 ≤ 23 →
      digitVal n1 * 10 + digitVal n2 ≤ 59 →
      digitVal o1 * 10 + digitVal o2 ≤ 23 →
      digitVal o3 * 10 + digitVal o4 ≤ 59 →
      parse_dt [y1, y2, y3, y4, '-', m1, m2, '-', d1, d2, 'T', h1, h2, ':', n1, n2,
          '+', o1, o2, ':', o3, o4] =
        some ⟨⟨⟨digitVal y1 * 1000 + digitVal y2 * 100 + digitVal y3 * 10 + digitVal y4,
            digitVal m1 * 10 + digitVal m2, digitVal d1 * 10 + digitVal d2⟩,
            digitVal h1 * 10 + digitVal h2, digitVal n1 * 10 + digitVal n2, 0⟩,
          some (.fixedOffset ((digitVal o1 * 10 + digitVal o2) * 60 +
            (digitVal o3 * 10 + digitVal o4) : Nat))⟩) ∧
    parse_dt ("not a date".toList) = none :=
  ⟨parse_dt_z, parse_dt_plus, by decide⟩

/-- Witness for C6: `2024-06-01T14:30Z` parses to the UTC instant
2024-06-01 14:30. -/
theorem claim_c6_witness :
    parse_dt ("2024-06-01T14:30Z".toList) =
      some ⟨⟨⟨2024, 6, 1⟩, 14, 30, 0⟩, some (.fixedOffset 0)⟩ :=
  claim_c6_amended.1 '2' '0' '2' '4' '0' '6' '0' '1' '1' '4' '3' '0'
    (by decide) (by decide) (by decide) (by decide) (by decide) (by decide)
    (by decide) (by decide) (by decide) (by decide) (by decide) (by decide)
    (by decide) (by decide) (by decide) (by decide) (by decide) (by decide) (by decide)
